import Mathlib

/-!
Shallow embedding of the crawl orchestration engine of `src/main.py`
(Connor56/crawl-a-site).

The embedding covers:
* `backoff_calculator` (src/main.py lines 412-463) over exact rationals
  (`wait * 2` on failure, `wait * 0.8 = wait * (4/5)` on success when
  `wait > min_wait`);
* the worker fetch-loop of `crawler` (lines 314-409): depth filter,
  lock-guarded check-then-add on the visited set, and the bounded retry
  loop with its success / skip-class / backoff-class / unclassified /
  transport-error branches.  One `client.get` call is modelled as a
  `FetchOutcome` supplied by an oracle indexed by the value of the
  `attempts` counter before its increment;
* the session registry and the `stop_session` / `data_stream` endpoints
  (lines 109-149 and 466-510).  A Python `dict` access on a missing key
  raises `KeyError`; the endpoints are therefore `Except PyError`-valued,
  where an `Except.error` means the exception escaped the handler.

Lock-serialized atomic regions (the visited check-then-add, the backoff
update) are modelled as single steps of the state-passing functions; a
session trace is the serialization of those regions.
-/

namespace CrawlASite

/-- HTTP status codes the crawler treats as permanent per-URL skips
(src/main.py line 389: `skip_codes = [301, 302, 400, 401, 403, 404]`). -/
def skip_codes : List Nat := [301, 302, 400, 401, 403, 404]

/-- HTTP status codes the crawler retries after backing off
(src/main.py line 391: `backoff_codes = [429, 500, 502, 503, 504]`). -/
def backoff_codes : List Nat := [429, 500, 502, 503, 504]

/-- The result of one `client.get(url)` call: either an HTTP response with
a status code and the `href` attributes of the anchors of its body, or a
transport-level error (connection failure, timeout, ...), which `httpx`
raises as an exception that is not an `HTTPStatusError`. -/
inductive FetchOutcome where
  | response (status : Nat) (hrefs : List String)
  | transportError
deriving DecidableEq, Repr

/-- Whether an outcome is an HTTP response at all (as opposed to a
transport-level error). -/
def FetchOutcome.isResponse : FetchOutcome → Bool
  | .response _ _ => true
  | .transportError => false

/-- Whether an outcome is an HTTP response in the backoff class:
`response.raise_for_status()` raises and the handler lands in the
`backoff_codes` branch (src/main.py line 398). -/
def FetchOutcome.isBackoff : FetchOutcome → Bool
  | .response s _ => decide (s ∈ backoff_codes)
  | .transportError => false

/-- `response.raise_for_status()` does not raise exactly on 2xx success
statuses; every other status raises `httpx.HTTPStatusError`. -/
def is2xx (s : Nat) : Bool := decide (200 ≤ s) && decide (s < 300)

/-- The shared backoff state of one session (src/main.py lines 191-194:
`backoff = {"wait": 0.25, "consecutive_failures": 0}`), with the float
arithmetic embedded over exact rationals. -/
structure Backoff where
  wait : ℚ
  consecutive_failures : ℕ
deriving DecidableEq, Repr

/-- The backoff state a fresh crawl starts from (src/main.py line 191). -/
def initialBackoff : Backoff := ⟨1/4, 0⟩

/-- Embedding of `backoff_calculator` (src/main.py lines 412-463): on
failure the wait doubles and `consecutive_failures` increments; on
success, when `wait > min_wait` the wait is multiplied by `0.8 = 4/5`
(with no further clamping) and `consecutive_failures` resets to `0`.
Returns the updated state together with the returned `backoff["wait"]`. -/
def backoff_calculator (b : Backoff) (failed : Bool) (min_wait : ℚ) :
    Backoff × ℚ :=
  if failed then
    (⟨b.wait * 2, b.consecutive_failures + 1⟩, b.wait * 2)
  else
    if min_wait < b.wait then (⟨b.wait * (4/5), 0⟩, b.wait * (4/5))
    else (⟨b.wait, 0⟩, b.wait)

/-- Folding `backoff_calculator` over a sequence of calls, `true` marking
a failure call and `false` a success call. -/
def backoffRun (min_wait : ℚ) : Backoff → List Bool → Backoff
  | b, [] => b
  | b, f :: fs => backoffRun min_wait (backoff_calculator b f min_wait).1 fs

/-- A message put on the session's `message_queue`
(src/main.py lines 371-373 and 393-395):
`{"visited": url, "links": list(links), "depth": depth}`. -/
structure CrawlEvent where
  visited : String
  links : List String
  depth : ℕ
deriving DecidableEq, Repr

/-- The set comprehension of src/main.py lines 364-368: the `href`
attributes that start with the session's base URL, as a set (modelled as
a deduplicated list). -/
def extractLinks (base_url : String) (hrefs : List String) : List String :=
  (hrefs.filter (fun h => h.startsWith base_url)).dedup

/-- Everything one worker iteration does to the world while processing a
single frontier item: the visited set and backoff state afterwards, how
many `client.get` calls were made, the events put on the message queue,
the items put on the url queue, whether `url_queue.task_done()` was
called for the item, and whether an exception escaped the worker
(crashing its task). -/
structure ItemResult where
  visited : List String
  backoff : Backoff
  fetches : ℕ
  events : List CrawlEvent
  enqueued : List (String × ℕ)
  acked : Bool
  crashed : Bool
deriving DecidableEq, Repr

/-- One iteration of the retry loop body after the attempt counter is
incremented (src/main.py lines 349-409): `client.get` produced outcome
`o`.  Either the loop terminates with a result (`Sum.inl`), or the
backoff-class branch updates the shared backoff state and the loop
continues (`Sum.inr`).  Branches:
* a transport-level error is not caught by `except httpx.HTTPStatusError`
  and propagates, crashing the worker without acknowledging the item;
* a 2xx response updates the backoff (success), emits the event with the
  same-origin links, enqueues the not-yet-visited links at `depth + 1`,
  acknowledges, and breaks;
* a skip-class status emits the event with an empty link list,
  acknowledges, and breaks;
* a backoff-class status records a failure on the backoff state and
  retries;
* any other status prints and breaks without acknowledging. -/
def oneAttempt (base_url url : String) (depth : ℕ) (visited : List String)
    (b : Backoff) (min_wait : ℚ) (o : FetchOutcome) : ItemResult ⊕ Backoff :=
  match o with
  | .transportError => .inl ⟨visited, b, 1, [], [], false, true⟩
  | .response status hrefs =>
    if is2xx status then
      let b2 := (backoff_calculator b false min_wait).1
      let links := extractLinks base_url hrefs
      let fresh := links.filter (fun l => decide (l ∉ visited))
      .inl ⟨visited, b2, 1, [⟨url, links, depth⟩],
        fresh.map (fun l => (l, depth + 1)), true, false⟩
    else if status ∈ skip_codes then
      .inl ⟨visited, b, 1, [⟨url, [], depth⟩], [], true, false⟩
    else if status ∈ backoff_codes then
      .inr (backoff_calculator b true min_wait).1
    else
      .inl ⟨visited, b, 1, [], [], false, false⟩

/-- The retry loop of src/main.py lines 340-409.  `attempts` is the value
of the Python `attempts` counter at the top of the loop; the `oc` oracle
gives the outcome of the `client.get` call made in the iteration that
observed that counter value.  When `attempts > max_attempts` the item is
acknowledged and abandoned with no event (lines 343-346).  `fetches`
counts the `client.get` calls performed. -/
def retryLoop (base_url url : String) (depth : ℕ) (visited : List String)
    (min_wait : ℚ) (max_attempts : ℕ) (oc : ℕ → FetchOutcome)
    (attempts : ℕ) (b : Backoff) : ItemResult :=
  if _h : attempts > max_attempts then
    ⟨visited, b, 0, [], [], true, false⟩
  else
    match oneAttempt base_url url depth visited b min_wait (oc attempts) with
    | .inl r => r
    | .inr b2 =>
      let r := retryLoop base_url url depth visited min_wait max_attempts oc
        (attempts + 1) b2
      { r with fetches := r.fetches + 1 }
termination_by max_attempts + 1 - attempts
decreasing_by omega

/-- One full worker iteration on a popped frontier item `(url, depth)`
(src/main.py lines 318-409): discard items over `max_depth` (lines
320-325), then the lock-guarded check-then-add on the visited set (lines
329-335) — an already-seen URL is acknowledged and skipped without any
fetch, a new URL is inserted before fetching — then the retry loop with
the attempt counter starting at `0`. -/
def processItem (base_url : String) (max_depth : ℕ) (url : String)
    (depth : ℕ) (visited : List String) (b : Backoff) (min_wait : ℚ)
    (max_attempts : ℕ) (oc : ℕ → FetchOutcome) : ItemResult :=
  if max_depth < depth then
    ⟨visited, b, 0, [], [], true, false⟩
  else if url ∈ visited then
    ⟨visited, b, 0, [], [], true, false⟩
  else
    retryLoop base_url url depth (url :: visited) min_wait max_attempts oc 0 b

/-- A serialized session trace: the workers' lock-guarded atomic regions
execute in some order; each list entry is one popped frontier item
together with the oracle for its fetch outcomes.  Returns the final
visited set and the list of URLs for which at least one fetch was
performed, in processing order. -/
def runItems (base_url : String) (max_depth : ℕ) (min_wait : ℚ)
    (max_attempts : ℕ) :
    List ((String × ℕ) × (ℕ → FetchOutcome)) → List String → Backoff →
    List String × List String
  | [], visited, _ => (visited, [])
  | (item, oc) :: rest, visited, b =>
    let r := processItem base_url max_depth item.1 item.2 visited b min_wait
      max_attempts oc
    let p := runItems base_url max_depth min_wait max_attempts rest
      r.visited r.backoff
    (p.1, (if 0 < r.fetches then [item.1] else []) ++ p.2)

/-- A Python exception escaping an endpoint handler.  A `dict` access on
a missing key raises `KeyError`; no endpoint of src/main.py catches it,
so it surfaces as an unhandled internal server error. -/
inductive PyError where
  | keyError
deriving DecidableEq, Repr

/-- One entry of the `sessions` registry (src/main.py line 64).
`set_session` stores only `url` (line 104); `crawl` later adds
`message_queue`, `url_queue` and `run_flag` (lines 198-201), so those
fields are `Option`s: accessing an absent field raises `KeyError`. -/
structure SessionEntry where
  url : String
  url_queue : Option (List (String × ℕ))
  run_flag : Option Bool
  message_queue : Option (List CrawlEvent)
deriving DecidableEq, Repr

/-- Reading a field of the inner session `dict`: `KeyError` when the
field has not been stored yet. -/
def getItem {α : Type} (o : Option α) : Except PyError α :=
  match o with
  | some a => .ok a
  | none => .error .keyError

/-- The registry lookup `sessions[session_key]` (the registry is a map
from session keys to entries): `KeyError` when the key is absent. -/
def lookupSession (sessions : List (String × SessionEntry)) (key : String) :
    Except PyError SessionEntry :=
  match sessions.find? (fun p => decide (p.1 = key)) with
  | some p => .ok p.2
  | none => .error .keyError

/-- What `stop_session` leaves behind and returns: the session entry
after the stop, the number of drained items acknowledged by
`task_done()`, and the JSON `status` string of the response body. -/
structure StopResult where
  entry : SessionEntry
  acks : ℕ
  status : String
deriving DecidableEq, Repr

/-- Embedding of the `stop_session` endpoint (src/main.py lines 109-149):
look up the session's `url_queue` and `run_flag` (each access may raise
`KeyError`, which no handler catches), clear the run flag, drain the
queue acknowledging every drained item, and answer
`{"status": "Success"}`. -/
def stop_session (sessions : List (String × SessionEntry)) (key : String) :
    Except PyError StopResult :=
  match lookupSession sessions key with
  | .error err => .error err
  | .ok e =>
    match e.url_queue with
    | none => .error .keyError
    | some q =>
      match e.run_flag with
      | none => .error .keyError
      | some _ =>
        .ok ⟨{ e with run_flag := some false, url_queue := some [] },
          q.length, "Success"⟩

/-- Embedding of the `data_stream` endpoint's connection step
(src/main.py lines 501-503): look up the session's `message_queue`;
a missing session key raises `KeyError`, which no handler catches. -/
def data_stream (sessions : List (String × SessionEntry)) (key : String) :
    Except PyError (List CrawlEvent) :=
  match lookupSession sessions key with
  | .error err => .error err
  | .ok e => getItem e.message_queue

/-! Helper lemmas about the status-code classes. -/

theorem skip_code_not_2xx {s : ℕ} (h : s ∈ skip_codes) : is2xx s = false := by
  fin_cases h <;> rfl

theorem backoff_code_not_2xx {s : ℕ} (h : s ∈ backoff_codes) :
    is2xx s = false := by
  fin_cases h <;> rfl

theorem backoff_code_not_skip {s : ℕ} (h : s ∈ backoff_codes) :
    s ∉ skip_codes := by
  fin_cases h <;> decide

/-! Helper lemmas about a single attempt of the retry loop. -/

theorem oneAttempt_inl_fields {base_url url : String} {depth : ℕ}
    {visited : List String} {b : Backoff} {min_wait : ℚ} {o : FetchOutcome}
    {r : ItemResult}
    (h : oneAttempt base_url url depth visited b min_wait o = .inl r) :
    r.visited = visited ∧ r.fetches = 1 := by
  cases o with
  | transportError =>
    simp only [oneAttempt, Sum.inl.injEq] at h
    subst h
    exact ⟨rfl, rfl⟩
  | response s hrefs =>
    simp only [oneAttempt] at h
    split_ifs at h <;>
      (simp only [Sum.inl.injEq] at h; subst h; exact ⟨rfl, rfl⟩)

theorem oneAttempt_response_no_crash {base_url url : String} {depth : ℕ}
    {visited : List String} {b : Backoff} {min_wait : ℚ} {s : ℕ}
    {hrefs : List String} {r : ItemResult}
    (h : oneAttempt base_url url depth visited b min_wait
      (.response s hrefs) = .inl r) :
    r.crashed = false := by
  simp only [oneAttempt] at h
  split_ifs at h <;>
    (simp only [Sum.inl.injEq] at h; subst h; rfl)

theorem oneAttempt_backoff {base_url url : String} {depth : ℕ}
    {visited : List String} {b : Backoff} {min_wait : ℚ} {o : FetchOutcome}
    (h : o.isBackoff = true) :
    oneAttempt base_url url depth visited b min_wait o =
      .inr (backoff_calculator b true min_wait).1 := by
  cases o with
  | transportError => simp [FetchOutcome.isBackoff] at h
  | response s hrefs =>
    have hs : s ∈ backoff_codes := by
      simpa [FetchOutcome.isBackoff] using h
    simp only [oneAttempt]
    rw [backoff_code_not_2xx hs]
    simp [backoff_code_not_skip hs, hs]

/-! Helper lemmas about the retry loop, proved by induction on the number
of remaining loop iterations. -/

theorem retryLoop_visited_aux (base_url url : String) (depth : ℕ)
    (visited : List String) (min_wait : ℚ) (max_attempts : ℕ)
    (oc : ℕ → FetchOutcome) :
    ∀ n attempts b, max_attempts + 1 - attempts ≤ n →
      (retryLoop base_url url depth visited min_wait max_attempts oc
        attempts b).visited = visited := by
  intro n
  induction n with
  | zero =>
    intro a b h
    rw [retryLoop]
    have ha : max_attempts < a := by omega
    simp [ha]
  | succ k ih =>
    intro a b h
    rw [retryLoop]
    by_cases ha : max_attempts < a
    · simp [ha]
    · simp only [gt_iff_lt, ha, dite_false]
      rcases hone : oneAttempt base_url url depth visited b min_wait (oc a)
        with r | b2
      · exact (oneAttempt_inl_fields hone).1
      · exact ih (a + 1) b2 (by omega)

theorem retryLoop_visited (base_url url : String) (depth : ℕ)
    (visited : List String) (min_wait : ℚ) (max_attempts : ℕ)
    (oc : ℕ → FetchOutcome) (attempts : ℕ) (b : Backoff) :
    (retryLoop base_url url depth visited min_wait max_attempts oc
      attempts b).visited = visited :=
  retryLoop_visited_aux base_url url depth visited min_wait max_attempts oc
    (max_attempts + 1 - attempts) attempts b le_rfl

theorem retryLoop_fetch_pos (base_url url : String) (depth : ℕ)
    (visited : List String) (min_wait : ℚ) (max_attempts : ℕ)
    (oc : ℕ → FetchOutcome) (attempts : ℕ) (b : Backoff)
    (h : attempts ≤ max_attempts) :
    0 < (retryLoop base_url url depth visited min_wait max_attempts oc
      attempts b).fetches := by
  rw [retryLoop]
  have ha : ¬ max_attempts < attempts := by omega
  rw [dif_neg ha]
  rcases hone : oneAttempt base_url url depth visited b min_wait (oc attempts)
    with r | b2
  · have h1 := (oneAttempt_inl_fields hone).2
    show 0 < r.fetches
    omega
  · show 0 < (retryLoop base_url url depth visited min_wait max_attempts oc
      (attempts + 1) b2).fetches + 1
    omega

theorem retryLoop_fetches_le_aux (base_url url : String) (depth : ℕ)
    (visited : List String) (min_wait : ℚ) (max_attempts : ℕ)
    (oc : ℕ → FetchOutcome) :
    ∀ n attempts b, max_attempts + 1 - attempts ≤ n →
      (retryLoop base_url url depth visited min_wait max_attempts oc
        attempts b).fetches ≤ max_attempts + 1 - attempts := by
  intro n
  induction n with
  | zero =>
    intro a b h
    rw [retryLoop]
    have ha : max_attempts < a := by omega
    simp [ha]
  | succ k ih =>
    intro a b h
    rw [retryLoop]
    by_cases ha : max_attempts < a
    · simp [ha]
    · rw [dif_neg ha]
      rcases hone : oneAttempt base_url url depth visited b min_wait (oc a)
        with r | b2
      · have h1 := (oneAttempt_inl_fields hone).2
        show r.fetches ≤ max_attempts + 1 - a
        omega
      · have h2 := ih (a + 1) b2 (by omega)
        show (retryLoop base_url url depth visited min_wait max_attempts oc
          (a + 1) b2).fetches + 1 ≤ max_attempts + 1 - a
        omega

theorem retryLoop_fetches_le (base_url url : String) (depth : ℕ)
    (visited : List String) (min_wait : ℚ) (max_attempts : ℕ)
    (oc : ℕ → FetchOutcome) (attempts : ℕ) (b : Backoff) :
    (retryLoop base_url url depth visited min_wait max_attempts oc
      attempts b).fetches ≤ max_attempts + 1 - attempts :=
  retryLoop_fetches_le_aux base_url url depth visited min_wait max_attempts oc
    (max_attempts + 1 - attempts) attempts b le_rfl

theorem retryLoop_allBackoff_aux (base_url url : String) (depth : ℕ)
    (visited : List String) (min_wait : ℚ) (max_attempts : ℕ)
    (oc : ℕ → FetchOutcome) (hbo : ∀ a, (oc a).isBackoff = true) :
    ∀ n attempts b, max_attempts + 1 - attempts ≤ n →
      (retryLoop base_url url depth visited min_wait max_attempts oc
          attempts b).fetches = max_attempts + 1 - attempts ∧
      (retryLoop base_url url depth visited min_wait max_attempts oc
          attempts b).events = [] ∧
      (retryLoop base_url url depth visited min_wait max_attempts oc
          attempts b).acked = true ∧
      (retryLoop base_url url depth visited min_wait max_attempts oc
          attempts b).crashed = false := by
  intro n
  induction n with
  | zero =>
    intro a b h
    rw [retryLoop]
    have ha : max_attempts < a := by omega
    rw [dif_pos ha]
    exact ⟨by show 0 = max_attempts + 1 - a; omega, rfl, rfl, rfl⟩
  | succ k ih =>
    intro a b h
    rw [retryLoop]
    by_cases ha : max_attempts < a
    · rw [dif_pos ha]
      exact ⟨by show 0 = max_attempts + 1 - a; omega, rfl, rfl, rfl⟩
    · rw [dif_neg ha]
      rw [oneAttempt_backoff (hbo a)]
      have h2 := ih (a + 1) (backoff_calculator b true min_wait).1 (by omega)
      refine ⟨?_, h2.2.1, h2.2.2.1, h2.2.2.2⟩
      show (retryLoop base_url url depth visited min_wait max_attempts oc
        (a + 1) (backoff_calculator b true min_wait).1).fetches + 1 =
          max_attempts + 1 - a
      have h3 := h2.1
      omega

theorem retryLoop_no_crash_aux (base_url url : String) (depth : ℕ)
    (visited : List String) (min_wait : ℚ) (max_attempts : ℕ)
    (oc : ℕ → FetchOutcome) (hresp : ∀ a, (oc a).isResponse = true) :
    ∀ n attempts b, max_attempts + 1 - attempts ≤ n →
      (retryLoop base_url url depth visited min_wait max_attempts oc
        attempts b).crashed = false := by
  intro n
  induction n with
  | zero =>
    intro a b h
    rw [retryLoop]
    have ha : max_attempts < a := by omega
    simp [ha]
  | succ k ih =>
    intro a b h
    rw [retryLoop]
    by_cases ha : max_attempts < a
    · simp [ha]
    · rw [dif_neg ha]
      cases hoc : oc a with
      | response s hrefs =>
        rcases hone : oneAttempt base_url url depth visited b min_wait
          (.response s hrefs) with r | b2
        · exact oneAttempt_response_no_crash hone
        · exact ih (a + 1) b2 (by omega)
      | transportError =>
        have h1 := hresp a
        rw [hoc] at h1
        simp [FetchOutcome.isResponse] at h1

theorem retryLoop_no_crash (base_url url : String) (depth : ℕ)
    (visited : List String) (min_wait : ℚ) (max_attempts : ℕ)
    (oc : ℕ → FetchOutcome) (attempts : ℕ) (b : Backoff)
    (hresp : ∀ a, (oc a).isResponse = true) :
    (retryLoop base_url url depth visited min_wait max_attempts oc
      attempts b).crashed = false :=
  retryLoop_no_crash_aux base_url url depth visited min_wait max_attempts oc
    hresp (max_attempts + 1 - attempts) attempts b le_rfl

/-! Helper lemmas computing a single attempt in each branch. -/

theorem oneAttempt_success (base_url url : String) (depth : ℕ)
    (visited : List String) (b : Backoff) (min_wait : ℚ) (s : ℕ)
    (hrefs : List String) (h : is2xx s = true) :
    oneAttempt base_url url depth visited b min_wait (.response s hrefs) =
      .inl ⟨visited, (backoff_calculator b false min_wait).1, 1,
        [⟨url, extractLinks base_url hrefs, depth⟩],
        ((extractLinks base_url hrefs).filter
          (fun l => decide (l ∉ visited))).map (fun l => (l, depth + 1)),
        true, false⟩ := by
  simp only [oneAttempt, h]
  rfl

theorem oneAttempt_skip (base_url url : String) (depth : ℕ)
    (visited : List String) (b : Backoff) (min_wait : ℚ) (s : ℕ)
    (hrefs : List String) (h : s ∈ skip_codes) :
    oneAttempt base_url url depth visited b min_wait (.response s hrefs) =
      .inl ⟨visited, b, 1, [⟨url, [], depth⟩], [], true, false⟩ := by
  simp only [oneAttempt]
  rw [skip_code_not_2xx h]
  simp [h]

theorem oneAttempt_unclassified (base_url url : String) (depth : ℕ)
    (visited : List String) (b : Backoff) (min_wait : ℚ) (s : ℕ)
    (hrefs : List String) (h1 : is2xx s = false) (h2 : s ∉ skip_codes)
    (h3 : s ∉ backoff_codes) :
    oneAttempt base_url url depth visited b min_wait (.response s hrefs) =
      .inl ⟨visited, b, 1, [], [], false, false⟩ := by
  simp only [oneAttempt, h1]
  simp [h2, h3]

theorem retryLoop_first_inl (base_url url : String) (depth : ℕ)
    (visited : List String) (min_wait : ℚ) (max_attempts : ℕ)
    (oc : ℕ → FetchOutcome) (b : Backoff) (r : ItemResult)
    (h : oneAttempt base_url url depth visited b min_wait (oc 0) = .inl r) :
    retryLoop base_url url depth visited min_wait max_attempts oc 0 b = r := by
  rw [retryLoop, dif_neg (Nat.not_lt_zero max_attempts), h]

/-! Helper lemmas about the backoff controller. -/

theorem backoff_calculator_failure (b : Backoff) (min_wait : ℚ) :
    backoff_calculator b true min_wait =
      (⟨b.wait * 2, b.consecutive_failures + 1⟩, b.wait * 2) := rfl

theorem backoff_calculator_success (b : Backoff) (min_wait : ℚ) :
    backoff_calculator b false min_wait =
      if min_wait < b.wait then (⟨b.wait * (4/5), 0⟩, b.wait * (4/5))
      else (⟨b.wait, 0⟩, b.wait) := rfl

/-- The bound the code actually maintains: every reachable wait stays
strictly above `4/5 * min_wait` (one un-clamped decay step below
`min_wait` is possible, but no more). -/
theorem backoffRun_lower_bound (min_wait : ℚ) (h0 : 0 ≤ min_wait) :
    ∀ (fs : List Bool) (b : Backoff), 4/5 * min_wait < b.wait →
      4/5 * min_wait < (backoffRun min_wait b fs).wait := by
  intro fs
  induction fs with
  | nil =>
    intro b hb
    simpa [backoffRun] using hb
  | cons f rest ih =>
    intro b hb
    have hw : 0 < b.wait := by
      have : (0 : ℚ) ≤ 4/5 * min_wait := by positivity
      linarith
    show 4/5 * min_wait <
      (backoffRun min_wait (backoff_calculator b f min_wait).1 rest).wait
    apply ih
    cases f with
    | false =>
      rw [backoff_calculator_success]
      by_cases hlt : min_wait < b.wait
      · rw [if_pos hlt]
        have h1 : 4/5 * min_wait < 4/5 * b.wait :=
          mul_lt_mul_of_pos_left hlt (by norm_num)
        show 4/5 * min_wait < b.wait * (4/5)
        linarith
      · rw [if_neg hlt]
        exact hb
    | true =>
      rw [backoff_calculator_failure]
      show 4/5 * min_wait < b.wait * 2
      linarith

/-! Helper lemmas about a full worker iteration on one frontier item. -/

theorem processItem_over_depth (base_url : String) (max_depth : ℕ)
    (url : String) (depth : ℕ) (visited : List String) (b : Backoff)
    (min_wait : ℚ) (max_attempts : ℕ) (oc : ℕ → FetchOutcome)
    (hd : max_depth < depth) :
    processItem base_url max_depth url depth visited b min_wait max_attempts
      oc = ⟨visited, b, 0, [], [], true, false⟩ := by
  simp [processItem, hd]

theorem processItem_seen (base_url : String) (max_depth : ℕ) (url : String)
    (depth : ℕ) (visited : List String) (b : Backoff) (min_wait : ℚ)
    (max_attempts : ℕ) (oc : ℕ → FetchOutcome) (hd : depth ≤ max_depth)
    (hv : url ∈ visited) :
    processItem base_url max_depth url depth visited b min_wait max_attempts
      oc = ⟨visited, b, 0, [], [], true, false⟩ := by
  simp [processItem, Nat.not_lt.mpr hd, hv]

theorem processItem_new (base_url : String) (max_depth : ℕ) (url : String)
    (depth : ℕ) (visited : List String) (b : Backoff) (min_wait : ℚ)
    (max_attempts : ℕ) (oc : ℕ → FetchOutcome) (hd : depth ≤ max_depth)
    (hv : url ∉ visited) :
    processItem base_url max_depth url depth visited b min_wait max_attempts
      oc = retryLoop base_url url depth (url :: visited) min_wait
        max_attempts oc 0 b := by
  simp [processItem, Nat.not_lt.mpr hd, hv]

theorem processItem_new_visited (base_url : String) (max_depth : ℕ)
    (url : String) (depth : ℕ) (visited : List String) (b : Backoff)
    (min_wait : ℚ) (max_attempts : ℕ) (oc : ℕ → FetchOutcome)
    (hd : depth ≤ max_depth) (hv : url ∉ visited) :
    (processItem base_url max_depth url depth visited b min_wait max_attempts
        oc).visited = url :: visited ∧
    0 < (processItem base_url max_depth url depth visited b min_wait
        max_attempts oc).fetches := by
  rw [processItem_new base_url max_depth url depth visited b min_wait
    max_attempts oc hd hv]
  exact ⟨retryLoop_visited base_url url depth (url :: visited) min_wait
      max_attempts oc 0 b,
    retryLoop_fetch_pos base_url url depth (url :: visited) min_wait
      max_attempts oc 0 b (Nat.zero_le max_attempts)⟩

/-- Over a serialized trace, the fetched-URL list has no duplicates and
avoids the initial visited set, the visited set stays duplicate-free and
only grows.  Proved by induction over the trace, using that a worker
fetches a URL exactly when its lock-guarded check-then-add found the URL
absent and inserted it. -/
theorem runItems_facts (base_url : String) (max_depth : ℕ) (min_wait : ℚ)
    (max_attempts : ℕ) :
    ∀ (items : List ((String × ℕ) × (ℕ → FetchOutcome)))
      (visited : List String) (b : Backoff), visited.Nodup →
      (runItems base_url max_depth min_wait max_attempts items visited
          b).2.Nodup ∧
      (∀ u ∈ (runItems base_url max_depth min_wait max_attempts items visited
          b).2, u ∉ visited) ∧
      (runItems base_url max_depth min_wait max_attempts items visited
          b).1.Nodup ∧
      (∀ u ∈ visited, u ∈ (runItems base_url max_depth min_wait max_attempts
          items visited b).1) := by
  intro items
  induction items with
  | nil =>
    intro v b hnd
    simp [runItems, hnd]
  | cons hd rest ih =>
    obtain ⟨⟨url, depth⟩, oc⟩ := hd
    intro v b hnd
    by_cases hdep : max_depth < depth
    · have hr := processItem_over_depth base_url max_depth url depth v b
        min_wait max_attempts oc hdep
      have hrec := ih v b hnd
      simp only [runItems, hr]
      simpa using hrec
    · have hdep' : depth ≤ max_depth := Nat.not_lt.mp hdep
      by_cases hv : url ∈ v
      · have hr := processItem_seen base_url max_depth url depth v b min_wait
          max_attempts oc hdep' hv
        have hrec := ih v b hnd
        simp only [runItems, hr]
        simpa using hrec
      · have hvis := (processItem_new_visited base_url max_depth url depth v b
          min_wait max_attempts oc hdep' hv).1
        have hpos := (processItem_new_visited base_url max_depth url depth v b
          min_wait max_attempts oc hdep' hv).2
        have hnd2 : (url :: v).Nodup := List.nodup_cons.mpr ⟨hv, hnd⟩
        have hrec := ih (url :: v)
          (processItem base_url max_depth url depth v b min_wait max_attempts
            oc).backoff hnd2
        simp only [runItems, hvis]
        rw [if_pos hpos]
        obtain ⟨h1, h2, h3, h4⟩ := hrec
        refine ⟨?_, ?_, h3, ?_⟩
        · simp only [List.singleton_append, List.nodup_cons]
          exact ⟨fun hmem => (h2 _ hmem) (List.mem_cons_self url v), h1⟩
        · intro u hu
          simp only [List.singleton_append, List.mem_cons] at hu
          rcases hu with rfl | hu
          · exact hv
          · intro huv
            exact (h2 u hu) (List.mem_cons_of_mem url huv)
        · intro u hu
          exact h4 u (List.mem_cons_of_mem url hu)

theorem processItem_fetches_le (base_url : String) (max_depth : ℕ)
    (url : String) (depth : ℕ) (visited : List String) (b : Backoff)
    (min_wait : ℚ) (max_attempts : ℕ) (oc : ℕ → FetchOutcome) :
    (processItem base_url max_depth url depth visited b min_wait max_attempts
      oc).fetches ≤ max_attempts + 1 := by
  unfold processItem
  split_ifs with h1 h2
  · simp
  · simp
  · have h := retryLoop_fetches_le base_url url depth (url :: visited)
      min_wait max_attempts oc 0 b
    omega

theorem processItem_allBackoff (base_url : String) (max_depth : ℕ)
    (url : String) (depth : ℕ) (visited : List String) (b : Backoff)
    (min_wait : ℚ) (max_attempts : ℕ) (oc : ℕ → FetchOutcome)
    (hd : depth ≤ max_depth) (hv : url ∉ visited)
    (hbo : ∀ a, (oc a).isBackoff = true) :
    (processItem base_url max_depth url depth visited b min_wait max_attempts
        oc).fetches = max_attempts + 1 ∧
    (processItem base_url max_depth url depth visited b min_wait max_attempts
        oc).events = [] ∧
    (processItem base_url max_depth url depth visited b min_wait max_attempts
        oc).acked = true ∧
    (processItem base_url max_depth url depth visited b min_wait max_attempts
        oc).crashed = false := by
  rw [processItem_new base_url max_depth url depth visited b min_wait
    max_attempts oc hd hv]
  have h := retryLoop_allBackoff_aux base_url url depth (url :: visited)
    min_wait max_attempts oc hbo (max_attempts + 1) 0 b (by omega)
  exact ⟨by simpa using h.1, h.2.1, h.2.2.1, h.2.2.2⟩

/-!  ## The claims  -/

/-- Claim C1: within a session no URL is fetched more than once and the
visited set never contains duplicates; the lock-guarded check-then-add is
one atomic region, so a worker popping an already-visited URL acknowledges
and continues without fetching, while a new URL is inserted before it is
fetched; the visited set only ever grows.  Formalized over serialized
traces of the workers' atomic regions: the fetched-URL list of any trace
is duplicate-free and disjoint from the initial visited set, the visited
set stays duplicate-free and is monotone, and per popped item the
check-then-add behaves as described. -/
theorem visited_set_unique (base_url : String) (max_depth : ℕ)
    (min_wait : ℚ) (max_attempts : ℕ)
    (items : List ((String × ℕ) × (ℕ → FetchOutcome)))
    (visited : List String) (b : Backoff) (hnd : visited.Nodup) :
    ((runItems base_url max_depth min_wait max_attempts items visited
        b).2.Nodup ∧
      (∀ u ∈ (runItems base_url max_depth min_wait max_attempts items visited
        b).2, u ∉ visited) ∧
      (runItems base_url max_depth min_wait max_attempts items visited
        b).1.Nodup ∧
      (∀ u ∈ visited, u ∈ (runItems base_url max_depth min_wait max_attempts
        items visited b).1)) ∧
    (∀ (url : String) (depth : ℕ) (v2 : List String) (b2 : Backoff)
        (oc : ℕ → FetchOutcome), url ∈ v2 → depth ≤ max_depth →
      processItem base_url max_depth url depth v2 b2 min_wait max_attempts
        oc = ⟨v2, b2, 0, [], [], true, false⟩) ∧
    (∀ (url : String) (depth : ℕ) (v2 : List String) (b2 : Backoff)
        (oc : ℕ → FetchOutcome), url ∉ v2 → depth ≤ max_depth →
      (processItem base_url max_depth url depth v2 b2 min_wait max_attempts
          oc).visited = url :: v2 ∧
      0 < (processItem base_url max_depth url depth v2 b2 min_wait
          max_attempts oc).fetches) :=
  ⟨runItems_facts base_url max_depth min_wait max_attempts items visited b
      hnd,
    fun url depth v2 b2 oc hv hd =>
      processItem_seen base_url max_depth url depth v2 b2 min_wait
        max_attempts oc hd hv,
    fun url depth v2 b2 oc hv hd =>
      processItem_new_visited base_url max_depth url depth v2 b2 min_wait
        max_attempts oc hd hv⟩

/-- Claim C1 witness: the theorem instantiated on a concrete two-item
trace that pops the same URL twice. -/
theorem visited_set_unique_witness :
    ([] : List String).Nodup ∧
    (((runItems "http://e.com" 1 (1/10) 8
        [(("http://e.com", 0), fun _ => .response 200 []),
         (("http://e.com", 1), fun _ => .response 200 [])] []
        initialBackoff).2.Nodup ∧
      (∀ u ∈ (runItems "http://e.com" 1 (1/10) 8
        [(("http://e.com", 0), fun _ => .response 200 []),
         (("http://e.com", 1), fun _ => .response 200 [])] []
        initialBackoff).2, u ∉ ([] : List String)) ∧
      (runItems "http://e.com" 1 (1/10) 8
        [(("http://e.com", 0), fun _ => .response 200 []),
         (("http://e.com", 1), fun _ => .response 200 [])] []
        initialBackoff).1.Nodup ∧
      (∀ u ∈ ([] : List String),
        u ∈ (runItems "http://e.com" 1 (1/10) 8
          [(("http://e.com", 0), fun _ => .response 200 []),
           (("http://e.com", 1), fun _ => .response 200 [])] []
          initialBackoff).1)) ∧
    (∀ (url : String) (depth : ℕ) (v2 : List String) (b2 : Backoff)
        (oc : ℕ → FetchOutcome), url ∈ v2 → depth ≤ 1 →
      processItem "http://e.com" 1 url depth v2 b2 (1/10) 8 oc =
        ⟨v2, b2, 0, [], [], true, false⟩) ∧
    (∀ (url : String) (depth : ℕ) (v2 : List String) (b2 : Backoff)
        (oc : ℕ → FetchOutcome), url ∉ v2 → depth ≤ 1 →
      (processItem "http://e.com" 1 url depth v2 b2 (1/10) 8 oc).visited =
        url :: v2 ∧
      0 < (processItem "http://e.com" 1 url depth v2 b2 (1/10) 8
        oc).fetches)) :=
  ⟨List.nodup_nil,
    visited_set_unique "http://e.com" 1 (1/10) 8
      [(("http://e.com", 0), fun _ => .response 200 []),
       (("http://e.com", 1), fun _ => .response 200 [])] []
      initialBackoff List.nodup_nil⟩

/-- Claim C2 counterexample: the code does not clamp the decayed wait at
`min_wait`.  With the crawl's actual parameters (initial wait `0.25`,
`min_wait = 0.1`), five consecutive successful calls drive the wait to
`0.25 * 0.8^5 = 0.08192 < 0.1`, so `current_wait` falls below `min_wait`,
refuting the claimed invariant. -/
theorem backoff_below_min_counterexample :
    (1/10 : ℚ) ≤ initialBackoff.wait ∧
    (backoffRun (1/10) initialBackoff
      [false, false, false, false, false]).wait < 1/10 := by
  constructor
  · norm_num [initialBackoff]
  · norm_num [backoffRun, backoff_calculator, initialBackoff]

/-- Claim C2 (amended): on failure the wait doubles, the failure count
increments and the new wait is returned; on success the failure count
resets to `0` and, when `current_wait > min_wait`, the wait is multiplied
by `0.8` with NO clamping at `min_wait` (otherwise it is unchanged); under
any sequence of calls the wait never falls to `4/5 * min_wait` or below
(rather than never falling below `min_wait`). -/
theorem backoff_calculator_spec (b : Backoff) (min_wait : ℚ)
    (fs : List Bool) (h0 : 0 ≤ min_wait) (hb : 4/5 * min_wait < b.wait) :
    (backoff_calculator b true min_wait).1.wait = b.wait * 2 ∧
    (backoff_calculator b true min_wait).1.consecutive_failures =
      b.consecutive_failures + 1 ∧
    (backoff_calculator b true min_wait).2 = b.wait * 2 ∧
    ((backoff_calculator b false min_wait).1.wait =
      if min_wait < b.wait then b.wait * (4/5) else b.wait) ∧
    (backoff_calculator b false min_wait).1.consecutive_failures = 0 ∧
    4/5 * min_wait < (backoffRun min_wait b fs).wait :=
  ⟨rfl, rfl, rfl,
    by rw [backoff_calculator_success]; split_ifs <;> rfl,
    by rw [backoff_calculator_success]; split_ifs <;> rfl,
    backoffRun_lower_bound min_wait h0 fs b hb⟩

/-- Claim C2 witness: the amended theorem instantiated at the crawl's
actual initial state, `min_wait = 0.1`, and a failure-then-success call
sequence. -/
theorem backoff_calculator_spec_witness :
    (0 : ℚ) ≤ 1/10 ∧ 4/5 * (1/10 : ℚ) < initialBackoff.wait ∧
    ((backoff_calculator initialBackoff true (1/10)).1.wait =
      initialBackoff.wait * 2 ∧
    (backoff_calculator initialBackoff true (1/10)).1.consecutive_failures =
      initialBackoff.consecutive_failures + 1 ∧
    (backoff_calculator initialBackoff true (1/10)).2 =
      initialBackoff.wait * 2 ∧
    ((backoff_calculator initialBackoff false (1/10)).1.wait =
      if (1/10 : ℚ) < initialBackoff.wait then initialBackoff.wait * (4/5)
      else initialBackoff.wait) ∧
    (backoff_calculator initialBackoff false (1/10)).1.consecutive_failures
      = 0 ∧
    4/5 * (1/10 : ℚ) <
      (backoffRun (1/10) initialBackoff [true, false]).wait) :=
  ⟨by norm_num, by norm_num [initialBackoff],
    backoff_calculator_spec initialBackoff (1/10) [true, false]
      (by norm_num) (by norm_num [initialBackoff])⟩

/-- Claim C3 counterexample: the guard `if attempts > max_attempts` runs
before the counter is incremented and the fetch is attempted, so with
`max_attempts = 8` and an always-backoff server (HTTP 503) the worker
performs 9 `client.get` calls for the item, exceeding the claimed bound
of `max_attempts` fetch attempts. -/
theorem retry_attempts_counterexample :
    8 < (processItem "http://e.com" 1 "http://e.com/a" 0 [] initialBackoff
      (1/10) 8 (fun _ => .response 503 [])).fetches ∧
    (processItem "http://e.com" 1 "http://e.com/a" 0 [] initialBackoff
      (1/10) 8 (fun _ => .response 503 [])).fetches = 9 := by
  have h9 : (processItem "http://e.com" 1 "http://e.com/a" 0 []
      initialBackoff (1/10) 8 (fun _ => .response 503 [])).fetches = 9 := by
    rw [processItem_new "http://e.com" 1 "http://e.com/a" 0 [] initialBackoff
      (1/10) 8 (fun _ => .response 503 []) (by omega) (by simp)]
    have h := retryLoop_allBackoff_aux "http://e.com" "http://e.com/a" 0
      ["http://e.com/a"] (1/10) 8 (fun _ => .response 503 [])
      (fun a => rfl) 9 0 initialBackoff (by omega)
    simpa using h.1
  exact ⟨by omega, h9⟩

/-- Claim C3 (amended): per frontier item the retry loop performs at most
`max_attempts + 1` (not `max_attempts`) fetch attempts — 9 with the
default of 8; when the attempts are exhausted the worker acknowledges the
item and abandons it permanently with no event. -/
theorem retry_attempts_bound (base_url : String) (max_depth : ℕ)
    (url : String) (depth : ℕ) (visited : List String) (b : Backoff)
    (min_wait : ℚ) (max_attempts : ℕ) (oc2 : ℕ → FetchOutcome)
    (hd : depth ≤ max_depth) (hv : url ∉ visited)
    (hbo : ∀ a, (oc2 a).isBackoff = true) :
    (∀ (oc : ℕ → FetchOutcome) (v2 : List String) (d2 : ℕ),
      (processItem base_url max_depth url d2 v2 b min_wait max_attempts
        oc).fetches ≤ max_attempts + 1) ∧
    (processItem base_url max_depth url depth visited b min_wait
        max_attempts oc2).fetches = max_attempts + 1 ∧
    (processItem base_url max_depth url depth visited b min_wait
        max_attempts oc2).events = [] ∧
    (processItem base_url max_depth url depth visited b min_wait
        max_attempts oc2).acked = true :=
  ⟨fun oc v2 d2 =>
      processItem_fetches_le base_url max_depth url d2 v2 b min_wait
        max_attempts oc,
    (processItem_allBackoff base_url max_depth url depth visited b min_wait
        max_attempts oc2 hd hv hbo).1,
    (processItem_allBackoff base_url max_depth url depth visited b min_wait
        max_attempts oc2 hd hv hbo).2.1,
    (processItem_allBackoff base_url max_depth url depth visited b min_wait
        max_attempts oc2 hd hv hbo).2.2.1⟩

/-- Claim C3 witness: the amended theorem instantiated with the default
`max_attempts = 8` and an always-503 server. -/
theorem retry_attempts_bound_witness :
    (0 : ℕ) ≤ 1 ∧ "http://e.com/a" ∉ ([] : List String) ∧
    ((∀ (oc : ℕ → FetchOutcome) (v2 : List String) (d2 : ℕ),
      (processItem "http://e.com" 1 "http://e.com/a" d2 v2 initialBackoff
        (1/10) 8 oc).fetches ≤ 8 + 1) ∧
    (processItem "http://e.com" 1 "http://e.com/a" 0 [] initialBackoff
        (1/10) 8 (fun _ => .response 503 [])).fetches = 8 + 1 ∧
    (processItem "http://e.com" 1 "http://e.com/a" 0 [] initialBackoff
        (1/10) 8 (fun _ => .response 503 [])).events = [] ∧
    (processItem "http://e.com" 1 "http://e.com/a" 0 [] initialBackoff
        (1/10) 8 (fun _ => .response 503 [])).acked = true) :=
  ⟨by omega, by simp,
    retry_attempts_bound "http://e.com" 1 "http://e.com/a" 0 []
      initialBackoff (1/10) 8 (fun _ => .response 503 []) (by omega)
      (by simp) (fun a => rfl)⟩

/-- Claim C4: an item whose depth exceeds `max_depth` is acknowledged and
discarded before the visited-set check: no fetch is attempted, no event
is emitted, nothing is enqueued, and the visited set — in particular the
item's URL — is left untouched. -/
theorem over_depth_no_fetch (base_url : String) (max_depth : ℕ)
    (url : String) (depth : ℕ) (visited : List String) (b : Backoff)
    (min_wait : ℚ) (max_attempts : ℕ) (oc : ℕ → FetchOutcome)
    (hd : max_depth < depth) :
    processItem base_url max_depth url depth visited b min_wait max_attempts
      oc = ⟨visited, b, 0, [], [], true, false⟩ :=
  processItem_over_depth base_url max_depth url depth visited b min_wait
    max_attempts oc hd

/-- Claim C4 witness: a depth-2 item against `max_depth = 1`. -/
theorem over_depth_no_fetch_witness :
    1 < 2 ∧
    processItem "http://e.com" 1 "http://e.com/a" 2 [] initialBackoff
      (1/10) 8 (fun _ => .response 200 []) =
      ⟨[], initialBackoff, 0, [], [], true, false⟩ :=
  ⟨by omega,
    over_depth_no_fetch "http://e.com" 1 "http://e.com/a" 2 []
      initialBackoff (1/10) 8 (fun _ => .response 200 []) (by omega)⟩

/-- Claim C5: a fetch answered with a skip-class status
(301, 302, 400, 401, 403 or 404) makes the worker emit exactly one event
with an empty link list for that URL, acknowledge the item, and leave the
retry loop after that single attempt — no retry, nothing enqueued. -/
theorem skip_class_single_event (base_url : String) (max_depth : ℕ)
    (url : String) (depth : ℕ) (visited : List String) (b : Backoff)
    (min_wait : ℚ) (max_attempts : ℕ) (oc : ℕ → FetchOutcome) (s : ℕ)
    (hrefs : List String) (hd : depth ≤ max_depth) (hv : url ∉ visited)
    (h0 : oc 0 = .response s hrefs) (hs : s ∈ skip_codes) :
    processItem base_url max_depth url depth visited b min_wait max_attempts
      oc = ⟨url :: visited, b, 1, [⟨url, [], depth⟩], [], true, false⟩ := by
  rw [processItem_new base_url max_depth url depth visited b min_wait
    max_attempts oc hd hv]
  apply retryLoop_first_inl
  rw [h0]
  exact oneAttempt_skip base_url url depth (url :: visited) b min_wait s
    hrefs hs

/-- Claim C5 witness: a 404 answer for the seed URL. -/
theorem skip_class_single_event_witness :
    (0 : ℕ) ≤ 1 ∧ "http://e.com" ∉ ([] : List String) ∧
    (fun _ : ℕ => FetchOutcome.response 404 ["http://e.com/x"]) 0 =
      .response 404 ["http://e.com/x"] ∧ 404 ∈ skip_codes ∧
    processItem "http://e.com" 1 "http://e.com" 0 [] initialBackoff (1/10)
      8 (fun _ => .response 404 ["http://e.com/x"]) =
      ⟨["http://e.com"], initialBackoff, 1, [⟨"http://e.com", [], 0⟩], [],
        true, false⟩ :=
  ⟨by omega, by simp, rfl, by decide,
    skip_class_single_event "http://e.com" 1 "http://e.com" 0 []
      initialBackoff (1/10) 8 (fun _ => .response 404 ["http://e.com/x"])
      404 ["http://e.com/x"] (by omega) (by simp) rfl (by decide)⟩

/-- Claim C6 counterexample: a fetch answered with an unclassified HTTP
status (418 is in neither the skip class nor the backoff class) makes the
worker break out of the retry loop WITHOUT calling
`url_queue.task_done()`: the abandoned item is not acknowledged, refuting
the claim that every abandoned item is acknowledged before being
dropped. -/
theorem abandoned_ack_counterexample :
    (processItem "http://e.com" 1 "http://e.com/a" 0 [] initialBackoff
      (1/10) 8 (fun _ => .response 418 [])).acked = false := by
  rw [processItem_new "http://e.com" 1 "http://e.com/a" 0 [] initialBackoff
    (1/10) 8 (fun _ => .response 418 []) (by omega) (by simp)]
  rw [retryLoop_first_inl "http://e.com" "http://e.com/a" 0
    ["http://e.com/a"] (1/10) 8 (fun _ => .response 418 []) initialBackoff
    ⟨["http://e.com/a"], initialBackoff, 1, [], [], false, false⟩
    (oneAttempt_unclassified "http://e.com" "http://e.com/a" 0
      ["http://e.com/a"] initialBackoff (1/10) 418 [] rfl (by decide)
      (by decide))]

/-- Claim C6 (amended): of the three abandonment paths only the
exhausted-attempts one acknowledges the item.  An unclassified HTTP
status logs and breaks with no event and WITHOUT acknowledging; a
transport-level error propagates out of the worker (crashing its task)
with no event and no acknowledgement; exhausted attempts acknowledge the
item with no event. -/
theorem abandoned_item_behavior (base_url : String) (max_depth : ℕ)
    (url : String) (depth : ℕ) (visited : List String) (b : Backoff)
    (min_wait : ℚ) (max_attempts : ℕ) (s : ℕ) (hrefs : List String)
    (oc1 oc3 : ℕ → FetchOutcome) (hd : depth ≤ max_depth)
    (hv : url ∉ visited) (h1 : oc1 0 = .response s hrefs)
    (h2 : is2xx s = false) (h3 : s ∉ skip_codes) (h4 : s ∉ backoff_codes)
    (hbo : ∀ a, (oc3 a).isBackoff = true) :
    processItem base_url max_depth url depth visited b min_wait max_attempts
      oc1 = ⟨url :: visited, b, 1, [], [], false, false⟩ ∧
    processItem base_url max_depth url depth visited b min_wait max_attempts
      (fun _ => .transportError) =
        ⟨url :: visited, b, 1, [], [], false, true⟩ ∧
    ((processItem base_url max_depth url depth visited b min_wait
        max_attempts oc3).events = [] ∧
      (processItem base_url max_depth url depth visited b min_wait
        max_attempts oc3).acked = true ∧
      (processItem base_url max_depth url depth visited b min_wait
        max_attempts oc3).crashed = false) := by
  refine ⟨?_, ?_, ?_⟩
  · rw [processItem_new base_url max_depth url depth visited b min_wait
      max_attempts oc1 hd hv]
    apply retryLoop_first_inl
    rw [h1]
    exact oneAttempt_unclassified base_url url depth (url :: visited) b
      min_wait s hrefs h2 h3 h4
  · rw [processItem_new base_url max_depth url depth visited b min_wait
      max_attempts (fun _ => .transportError) hd hv]
    exact retryLoop_first_inl base_url url depth (url :: visited) min_wait
      max_attempts (fun _ => .transportError) b
      ⟨url :: visited, b, 1, [], [], false, true⟩ rfl
  · have h := processItem_allBackoff base_url max_depth url depth visited b
      min_wait max_attempts oc3 hd hv hbo
    exact ⟨h.2.1, h.2.2.1, h.2.2.2⟩

/-- Claim C6 witness: the amended theorem instantiated with status 418,
a transport error, and an always-503 server. -/
theorem abandoned_item_behavior_witness :
    (0 : ℕ) ≤ 1 ∧ "http://e.com/a" ∉ ([] : List String) ∧
    (fun _ : ℕ => FetchOutcome.response 418 []) 0 = .response 418 [] ∧
    is2xx 418 = false ∧ 418 ∉ skip_codes ∧ 418 ∉ backoff_codes ∧
    (processItem "http://e.com" 1 "http://e.com/a" 0 [] initialBackoff
      (1/10) 8 (fun _ => .response 418 []) =
        ⟨["http://e.com/a"], initialBackoff, 1, [], [], false, false⟩ ∧
    processItem "http://e.com" 1 "http://e.com/a" 0 [] initialBackoff
      (1/10) 8 (fun _ => .transportError) =
        ⟨["http://e.com/a"], initialBackoff, 1, [], [], false, true⟩ ∧
    ((processItem "http://e.com" 1 "http://e.com/a" 0 [] initialBackoff
        (1/10) 8 (fun _ => .response 503 [])).events = [] ∧
      (processItem "http://e.com" 1 "http://e.com/a" 0 [] initialBackoff
        (1/10) 8 (fun _ => .response 503 [])).acked = true ∧
      (processItem "http://e.com" 1 "http://e.com/a" 0 [] initialBackoff
        (1/10) 8 (fun _ => .response 503 [])).crashed = false)) :=
  ⟨by omega, by simp, rfl, rfl, by decide, by decide,
    abandoned_item_behavior "http://e.com" 1 "http://e.com/a" 0 []
      initialBackoff (1/10) 8 418 [] (fun _ => .response 418 [])
      (fun _ => .response 503 []) (by omega) (by simp) rfl rfl (by decide)
      (by decide) (fun a => rfl)⟩

theorem processItem_no_crash (base_url : String) (max_depth : ℕ)
    (url : String) (depth : ℕ) (visited : List String) (b : Backoff)
    (min_wait : ℚ) (max_attempts : ℕ) (oc : ℕ → FetchOutcome)
    (hresp : ∀ a, (oc a).isResponse = true) :
    (processItem base_url max_depth url depth visited b min_wait
      max_attempts oc).crashed = false := by
  unfold processItem
  split_ifs with hd1 hd2
  · rfl
  · rfl
  · exact retryLoop_no_crash base_url url depth (url :: visited) min_wait
      max_attempts oc 0 b hresp

/-- Claim C7 counterexample: a transport-level error (anything `httpx`
raises that is not an `HTTPStatusError`) is not caught by the worker's
`except httpx.HTTPStatusError` clause, so the exception propagates out of
the fetch-loop and the worker task crashes — a per-URL failure for which
the propagating branch is reachable, refuting the claim. -/
theorem transport_crash_counterexample :
    processItem "http://e.com" 1 "http://e.com/a" 0 [] initialBackoff
      (1/10) 8 (fun _ => .transportError) =
      ⟨["http://e.com/a"], initialBackoff, 1, [], [], false, true⟩ := by
  rw [processItem_new "http://e.com" 1 "http://e.com/a" 0 [] initialBackoff
    (1/10) 8 (fun _ => .transportError) (by omega) (by simp)]
  exact retryLoop_first_inl "http://e.com" "http://e.com/a" 0
    ["http://e.com/a"] (1/10) 8 (fun _ => .transportError) initialBackoff
    ⟨["http://e.com/a"], initialBackoff, 1, [], [], false, true⟩ rfl

/-- Claim C7 (amended): every HTTP-status outcome (any status code,
classified or not) is handled inside the worker loop without the worker
task crashing, but a transport-level error is NOT: it escapes the
fetch-loop and crashes the worker task. -/
theorem per_url_failure_propagation (base_url : String) (max_depth : ℕ)
    (url : String) (depth : ℕ) (visited : List String) (b : Backoff)
    (min_wait : ℚ) (max_attempts : ℕ) (oc : ℕ → FetchOutcome)
    (hresp : ∀ a, (oc a).isResponse = true) (hd : depth ≤ max_depth)
    (hv : url ∉ visited) :
    (∀ (v2 : List String) (d2 : ℕ) (b2 : Backoff),
      (processItem base_url max_depth url d2 v2 b2 min_wait max_attempts
        oc).crashed = false) ∧
    (processItem base_url max_depth url depth visited b min_wait
      max_attempts (fun _ => .transportError)).crashed = true := by
  constructor
  · intro v2 d2 b2
    exact processItem_no_crash base_url max_depth url d2 v2 b2 min_wait
      max_attempts oc hresp
  · rw [processItem_new base_url max_depth url depth visited b min_wait
      max_attempts (fun _ => .transportError) hd hv]
    rw [retryLoop_first_inl base_url url depth (url :: visited) min_wait
      max_attempts (fun _ => .transportError) b
      ⟨url :: visited, b, 1, [], [], false, true⟩ rfl]

/-- Claim C7 witness: the amended theorem instantiated with an
always-500 server (a worst-case HTTP-status stream) and a transport
error. -/
theorem per_url_failure_propagation_witness :
    (∀ a, ((fun _ : ℕ => FetchOutcome.response 500 []) a).isResponse =
      true) ∧ (0 : ℕ) ≤ 1 ∧ "http://e.com/a" ∉ ([] : List String) ∧
    ((∀ (v2 : List String) (d2 : ℕ) (b2 : Backoff),
      (processItem "http://e.com" 1 "http://e.com/a" d2 v2 b2 (1/10) 8
        (fun _ => .response 500 [])).crashed = false) ∧
    (processItem "http://e.com" 1 "http://e.com/a" 0 [] initialBackoff
      (1/10) 8 (fun _ => .transportError)).crashed = true) :=
  ⟨fun a => rfl, by omega, by simp,
    per_url_failure_propagation "http://e.com" 1 "http://e.com/a" 0 []
      initialBackoff (1/10) 8 (fun _ => .response 500 []) (fun a => rfl)
      (by omega) (by simp)⟩

/-- Claim C8 counterexample: for a key absent from the registry both
`stop_session` and the live-stream connection raise a bare `KeyError`
that no handler catches — an unhandled internal error surfacing as a
server error, not a client-visible `SessionNotFound` failure (no such
error exists anywhere in the code). -/
theorem session_not_found_counterexample :
    stop_session [] "missing" = .error .keyError ∧
    data_stream [] "missing" = .error .keyError :=
  ⟨rfl, rfl⟩

/-- Claim C8 (amended): for an absent session key, `stop_session` and the
live-stream connection fail by letting the registry lookup's `KeyError`
propagate (an unhandled internal error, there being no handled
`SessionNotFound`); for a present key whose queue and flag fields are
initialized, `stop_session` returns status `"Success"` after clearing the
run flag, draining the frontier queue and acknowledging every drained
item. -/
theorem stop_session_errors (s1 s2 : List (String × SessionEntry))
    (k1 k2 : String) (e : SessionEntry) (q : List (String × ℕ)) (f : Bool)
    (h1 : lookupSession s1 k1 = .error .keyError)
    (h2 : lookupSession s2 k2 = .ok e) (hq : e.url_queue = some q)
    (hf : e.run_flag = some f) :
    stop_session s1 k1 = .error .keyError ∧
    data_stream s1 k1 = .error .keyError ∧
    stop_session s2 k2 = .ok
      ⟨{ e with run_flag := some false, url_queue := some [] }, q.length,
        "Success"⟩ := by
  refine ⟨?_, ?_, ?_⟩
  · unfold stop_session
    rw [h1]
  · unfold data_stream
    rw [h1]
  · obtain ⟨u, uq, rf, mq⟩ := e
    have hq2 : uq = some q := hq
    have hf2 : rf = some f := hf
    subst hq2
    subst hf2
    unfold stop_session
    rw [h2]

/-- Claim C8 witness: the amended theorem instantiated on the empty
registry and on a one-session registry with a two-item frontier. -/
theorem stop_session_errors_witness :
    lookupSession [] "missing" = .error .keyError ∧
    lookupSession [("k", ⟨"http://e.com", some [("http://e.com/a", 1),
      ("http://e.com/b", 1)], some true, some []⟩)] "k" =
      .ok ⟨"http://e.com", some [("http://e.com/a", 1),
        ("http://e.com/b", 1)], some true, some []⟩ ∧
    (stop_session [] "missing" = .error .keyError ∧
    data_stream [] "missing" = .error .keyError ∧
    stop_session [("k", ⟨"http://e.com", some [("http://e.com/a", 1),
        ("http://e.com/b", 1)], some true, some []⟩)] "k" = .ok
      ⟨⟨"http://e.com", some [], some false, some []⟩,
        [("http://e.com/a", 1), ("http://e.com/b", 1)].length,
        "Success"⟩) :=
  ⟨rfl, rfl,
    stop_session_errors [] [("k", ⟨"http://e.com",
      some [("http://e.com/a", 1), ("http://e.com/b", 1)], some true,
      some []⟩)] "missing" "k" ⟨"http://e.com",
      some [("http://e.com/a", 1), ("http://e.com/b", 1)], some true,
      some []⟩ [("http://e.com/a", 1), ("http://e.com/b", 1)] true rfl rfl
      rfl rfl⟩

/-- Claim C9: `stop_session` is idempotent — on a session that still
exists in the registry and is already stopped (run flag already cleared,
frontier queue already empty) a stop call changes no session state (the
entry it stores back equals the old one), drains and acknowledges
nothing, and returns the same successful `{"status": "Success"}` response
as the first stop. -/
theorem stop_session_idempotent (sessions : List (String × SessionEntry))
    (key : String) (e : SessionEntry)
    (h : lookupSession sessions key = .ok e) (hq : e.url_queue = some [])
    (hf : e.run_flag = some false) :
    stop_session sessions key = .ok ⟨e, 0, "Success"⟩ := by
  obtain ⟨u, uq, rf, mq⟩ := e
  have hq2 : uq = some [] := hq
  have hf2 : rf = some false := hf
  subst hq2
  subst hf2
  unfold stop_session
  rw [h]
  rfl

/-- Claim C9 witness: stopping an already-stopped concrete session. -/
theorem stop_session_idempotent_witness :
    lookupSession [("k", ⟨"http://e.com", some [], some false, some []⟩)]
      "k" = .ok ⟨"http://e.com", some [], some false, some []⟩ ∧
    stop_session [("k", ⟨"http://e.com", some [], some false, some []⟩)]
      "k" = .ok ⟨⟨"http://e.com", some [], some false, some []⟩, 0,
        "Success"⟩ :=
  ⟨rfl,
    stop_session_idempotent
      [("k", ⟨"http://e.com", some [], some false, some []⟩)] "k"
      ⟨"http://e.com", some [], some false, some []⟩ rfl rfl rfl⟩

/-- Claim C10: a successful (2xx) fetch emits one event whose link list
is exactly the extracted hrefs that start with the session's base URL —
including ones already visited, since the visited-set subtraction happens
only afterwards — and enqueues exactly the links not yet visited at that
moment (the fetched URL itself having just been inserted), each at
`depth + 1`. -/
theorem success_event_links (base_url : String) (max_depth : ℕ)
    (url : String) (depth : ℕ) (visited : List String) (b : Backoff)
    (min_wait : ℚ) (max_attempts : ℕ) (oc : ℕ → FetchOutcome) (s : ℕ)
    (hrefs : List String) (hd : depth ≤ max_depth) (hv : url ∉ visited)
    (h0 : oc 0 = .response s hrefs) (h2 : 200 ≤ s) (h3 : s < 300) :
    processItem base_url max_depth url depth visited b min_wait max_attempts
      oc = ⟨url :: visited, (backoff_calculator b false min_wait).1, 1,
        [⟨url, extractLinks base_url hrefs, depth⟩],
        ((extractLinks base_url hrefs).filter
          (fun l => decide (l ∉ url :: visited))).map
            (fun l => (l, depth + 1)), true, false⟩ ∧
    (∀ l ∈ hrefs, l.startsWith base_url = true →
      l ∈ extractLinks base_url hrefs) := by
  constructor
  · rw [processItem_new base_url max_depth url depth visited b min_wait
      max_attempts oc hd hv]
    apply retryLoop_first_inl
    rw [h0]
    apply oneAttempt_success
    unfold is2xx
    rw [decide_eq_true h2, decide_eq_true h3]
    rfl
  · intro l hl hstart
    unfold extractLinks
    exact List.mem_dedup.mpr (List.mem_filter.mpr ⟨hl, hstart⟩)

/-- Claim C10 witness: a 200 answer whose body links to one
already-visited page, one new page and one off-origin page. -/
theorem success_event_links_witness :
    (0 : ℕ) ≤ 1 ∧ "http://e.com" ∉ (["http://e.com/seen"] : List String) ∧
    (fun _ : ℕ => FetchOutcome.response 200 ["http://e.com/seen",
      "http://e.com/new", "http://other.com/x"]) 0 =
      .response 200 ["http://e.com/seen", "http://e.com/new",
        "http://other.com/x"] ∧ 200 ≤ 200 ∧ 200 < 300 ∧
    (processItem "http://e.com" 1 "http://e.com" 0 ["http://e.com/seen"]
      initialBackoff (1/10) 8 (fun _ => .response 200 ["http://e.com/seen",
        "http://e.com/new", "http://other.com/x"]) =
      ⟨"http://e.com" :: ["http://e.com/seen"],
        (backoff_calculator initialBackoff false (1/10)).1, 1,
        [⟨"http://e.com", extractLinks "http://e.com" ["http://e.com/seen",
          "http://e.com/new", "http://other.com/x"], 0⟩],
        ((extractLinks "http://e.com" ["http://e.com/seen",
          "http://e.com/new", "http://other.com/x"]).filter
          (fun l => decide (l ∉ "http://e.com" ::
            ["http://e.com/seen"]))).map (fun l => (l, 0 + 1)), true,
        false⟩ ∧
    (∀ l ∈ ["http://e.com/seen", "http://e.com/new", "http://other.com/x"],
      l.startsWith "http://e.com" = true →
        l ∈ extractLinks "http://e.com" ["http://e.com/seen",
          "http://e.com/new", "http://other.com/x"])) :=
  ⟨by omega, by simp, rfl, by omega, by omega,
    success_event_links "http://e.com" 1 "http://e.com" 0
      ["http://e.com/seen"] initialBackoff (1/10) 8
      (fun _ => .response 200 ["http://e.com/seen", "http://e.com/new",
        "http://other.com/x"]) 200 ["http://e.com/seen", "http://e.com/new",
        "http://other.com/x"] (by omega) (by simp) rfl (by omega)
      (by omega)⟩

end CrawlASite
